import Mathlib

/-!
# Verification of the PQC hybrid-encryption container toolkit

A shallow embedding of the core of the Post-Quantum-Encryption-Toolkit
repository (`src/encryptor.py`, `src/decryptor.py`), together with proofs
about it.  Byte strings are modelled as `List Nat` (each element a byte
value).  File I/O is abstracted away: the pure core of
`encrypt_file_hybrid` / `decrypt_file_hybrid` acts on in-memory byte
sequences, with the external PQ primitives (KEM, DSS, AES-GCM) passed in as
function parameters, and the random nonce passed explicitly.  The order in
which `decrypt_file_hybrid` performs its cryptographic calls is recorded as
an explicit event trace.

The SHA-256 / HMAC / HKDF functions below embed what the source invokes via
`cryptography.hazmat.primitives.kdf.hkdf.HKDF(SHA256, 32, salt=None,
info=b'pqc-aes-key')`, i.e. RFC 5869 HKDF-SHA256 with an all-zero 32-byte
salt (the library substitutes `salt=None` by a zero block of hash length).
-/

set_option maxRecDepth 100000

namespace PQC

abbrev Bytes := List Nat

/-! ## SHA-256 (FIPS 180-4), over byte lists -/

def w32 (n : Nat) : Nat := n % 4294967296

def rotr (x n : Nat) : Nat := (x >>> n) ||| w32 (x <<< (32 - n))

def bigSigma0 (x : Nat) : Nat := (rotr x 2) ^^^ (rotr x 13) ^^^ (rotr x 22)

def bigSigma1 (x : Nat) : Nat := (rotr x 6) ^^^ (rotr x 11) ^^^ (rotr x 25)

def smallSigma0 (x : Nat) : Nat := (rotr x 7) ^^^ (rotr x 18) ^^^ (x >>> 3)

def smallSigma1 (x : Nat) : Nat := (rotr x 17) ^^^ (rotr x 19) ^^^ (x >>> 10)

def chFun (x y z : Nat) : Nat := (x &&& y) ^^^ ((x ^^^ 4294967295) &&& z)

def majFun (x y z : Nat) : Nat := (x &&& y) ^^^ (x &&& z) ^^^ (y &&& z)

def sha256K : List Nat :=
  [1116352408, 1899447441, 3049323471, 3921009573,
   961987163, 1508970993, 2453635748, 2870763221,
   3624381080, 310598401, 607225278, 1426881987,
   1925078388, 2162078206, 2614888103, 3248222580,
   3835390401, 4022224774, 264347078, 604807628,
   770255983, 1249150122, 1555081692, 1996064986,
   2554220882, 2821834349, 2952996808, 3210313671,
   3336571891, 3584528711, 113926993, 338241895,
   666307205, 773529912, 1294757372, 1396182291,
   1695183700, 1986661051, 2177026350, 2456956037,
   2730485921, 2820302411, 3259730800, 3345764771,
   3516065817, 3600352804, 4094571909, 275423344,
   430227734, 506948616, 659060556, 883997877,
   958139571, 1322822218, 1537002063, 1747873779,
   1955562222, 2024104815, 2227730452, 2361852424,
   2428436474, 2756734187, 3204031479, 3329325298]

def sha256H0 : List Nat :=
  [1779033703, 3144134277, 1013904242, 2773480762,
   1359893119, 2600822924, 528734635, 1541459225]

def u64be (n : Nat) : Bytes :=
  [n / 2 ^ 56 % 256, n / 2 ^ 48 % 256, n / 2 ^ 40 % 256, n / 2 ^ 32 % 256,
   n / 2 ^ 24 % 256, n / 2 ^ 16 % 256, n / 2 ^ 8 % 256, n % 256]

def sha256Pad (msg : Bytes) : Bytes :=
  msg ++ [0x80] ++ List.replicate ((119 - msg.length % 64) % 64) 0 ++ u64be (8 * msg.length)

def bytesToWords : Bytes → List Nat
  | a :: b :: c :: d :: rest => (((a * 256 + b) * 256 + c) * 256 + d) :: bytesToWords rest
  | _ => []

/-- Extend the 16-word block schedule by `n` further words. -/
def extendSchedule : Nat → List Nat → List Nat
  | 0, ws => ws
  | n + 1, ws =>
      extendSchedule n (ws ++ [w32 (smallSigma1 (ws.getD (ws.length - 2) 0) +
        ws.getD (ws.length - 7) 0 + smallSigma0 (ws.getD (ws.length - 15) 0) +
        ws.getD (ws.length - 16) 0)])

/-- One round of the SHA-256 compression function on the 8-word state. -/
def sha256Round (st : List Nat) (k w : Nat) : List Nat :=
  match st with
  | [a, b, c, d, e, f, g, h] =>
      let t1 := w32 (h + bigSigma1 e + chFun e f g + k + w)
      let t2 := w32 (bigSigma0 a + majFun a b c)
      [w32 (t1 + t2), a, b, c, w32 (d + t1), e, f, g]
  | other => other

def processBlock (h : List Nat) (block : Bytes) : List Nat :=
  let ws := extendSchedule 48 (bytesToWords block)
  let st := (List.zip sha256K ws).foldl (fun st kw => sha256Round st kw.1 kw.2) h
  List.zipWith (fun x y => w32 (x + y)) h st

def sha256Blocks : Nat → List Nat → Bytes → List Nat
  | 0, h, _ => h
  | n + 1, h, msg => sha256Blocks n (processBlock h (msg.take 64)) (msg.drop 64)

def u32be (n : Nat) : Bytes :=
  [n / 2 ^ 24 % 256, n / 2 ^ 16 % 256, n / 2 ^ 8 % 256, n % 256]

def sha256 (msg : Bytes) : Bytes :=
  let p := sha256Pad msg
  ((sha256Blocks (p.length / 64) sha256H0 p).map u32be).flatten

/-! ## HMAC-SHA256 (RFC 2104) and HKDF-SHA256 (RFC 5869) -/

def hmacSha256 (key msg : Bytes) : Bytes :=
  let k := if 64 < key.length then sha256 key else key
  let kp := k ++ List.replicate (64 - k.length) 0
  sha256 ((kp.map (fun b => b ^^^ 0x5c)) ++ sha256 ((kp.map (fun b => b ^^^ 0x36)) ++ msg))

/-- HKDF-SHA256 with a 32-byte all-zero salt (what `HKDF(..., salt=None, ...)`
of the `cryptography` library uses) producing 32 output bytes. -/
def hkdfSha256_32 (ikm info : Bytes) : Bytes :=
  (hmacSha256 (hmacSha256 (List.replicate 32 0) ikm) (info ++ [1])).take 32

/-- The `info` argument the source passes to HKDF: `b'pqc-aes-key'`. -/
def pqcAesKeyInfo : Bytes := [112, 113, 99, 45, 97, 101, 115, 45, 107, 101, 121]

/-! ## File format constants (src/encryptor.py lines 19-22, src/decryptor.py lines 17-20) -/

/-- Magic number for `.pqc` files: the bytes of `b'PQC1'`. -/
def PQC_FILE_MAGIC : Bytes := [80, 81, 67, 49]

def ALGORITHM_KEM_MLKEM768 : Nat := 0x01

def ALGORITHM_DSS_MLDSA87 : Nat := 0x02

def ALGORITHM_SYM_AES256GCM : Nat := 0x03

/-! ## Library selection and session-key derivation

`_get_pqc_library` picks one of three PQ libraries at runtime; the
shared-secret-to-AES-key normalisation in `_encapsulate_key` (encryptor) and
`_decapsulate_key` (decryptor) depends on which library was selected. -/

inductive LibType
  | quantcrypt
  | pqcrypto
  | kyberDilithium
deriving DecidableEq, Repr

/-- The shared-secret normalisation on the encrypt path, from
`_encapsulate_key` (src/encryptor.py lines 68-98): the quantcrypt branch
falls back to HKDF for short secrets, the other two branches zero-pad. -/
def encDeriveAesKey (lib : LibType) (sharedSecret : Bytes) : Bytes :=
  match lib with
  | .quantcrypt =>
      if 32 ≤ sharedSecret.length then sharedSecret.take 32
      else hkdfSha256_32 sharedSecret pqcAesKeyInfo
  | .pqcrypto =>
      if 32 ≤ sharedSecret.length then sharedSecret.take 32
      else sharedSecret ++ List.replicate (32 - sharedSecret.length) 0
  | .kyberDilithium =>
      if 32 ≤ sharedSecret.length then sharedSecret.take 32
      else sharedSecret ++ List.replicate (32 - sharedSecret.length) 0

/-- The shared-secret normalisation on the decrypt path, from
`_decapsulate_key` (src/decryptor.py lines 67-94); the source duplicates the
encrypt-side code verbatim. -/
def decDeriveAesKey (lib : LibType) (sharedSecret : Bytes) : Bytes :=
  match lib with
  | .quantcrypt =>
      if 32 ≤ sharedSecret.length then sharedSecret.take 32
      else hkdfSha256_32 sharedSecret pqcAesKeyInfo
  | .pqcrypto =>
      if 32 ≤ sharedSecret.length then sharedSecret.take 32
      else sharedSecret ++ List.replicate (32 - sharedSecret.length) 0
  | .kyberDilithium =>
      if 32 ≤ sharedSecret.length then sharedSecret.take 32
      else sharedSecret ++ List.replicate (32 - sharedSecret.length) 0

/-! ## Container decode (the reading phase of `decrypt_file_hybrid`,
src/decryptor.py lines 160-185)

`f.read(n)` returns at most `n` bytes (`take`/`drop` on the remaining
stream); `struct.unpack` raises `struct.error` when handed a short buffer.
The only two failures the reading phase can raise are the magic-number
`ValueError` and `struct.error`. -/

deriving instance DecidableEq for Except

inductive ParseErr
  | badMagic
  | structError
deriving DecidableEq, Repr

structure Parsed where
  flags : Nat
  kemCtLen : Nat
  tagLen : Nat
  sigLen : Nat
  nonce : Bytes
  kemCt : Bytes
  tag : Bytes
  sig : Option Bytes
  aesCt : Bytes
deriving DecidableEq, Repr

/-- Big-endian `uint32` read of an exactly-4-byte buffer (`struct.unpack('>I', ...)`). -/
def readU32 (b : Bytes) : Nat :=
  match b with
  | [a, b, c, d] => ((a * 256 + b) * 256 + c) * 256 + d
  | _ => 0

def parseContainer (d : Bytes) : Except ParseErr Parsed :=
  if d.take 4 ≠ PQC_FILE_MAGIC then .error .badMagic else
  let s0 := d.drop 4
  if s0.length < 1 then .error .structError else
  let flags := s0.headI
  let s1 := s0.drop 1
  if s1.length < 4 then .error .structError else
  let kemCtLen := readU32 (s1.take 4)
  let s2 := s1.drop 4
  if s2.length < 4 then .error .structError else
  let tagLen := readU32 (s2.take 4)
  let s3 := s2.drop 4
  if s3.length < 4 then .error .structError else
  let sigLen := readU32 (s3.take 4)
  let s4 := s3.drop 4
  let nonce := s4.take 12
  let s5 := s4.drop 12
  let kemCt := s5.take kemCtLen
  let s6 := s5.drop kemCtLen
  let tag := s6.take tagLen
  let s7 := s6.drop tagLen
  let sig := if 0 < sigLen then some (s7.take sigLen) else none
  let s8 := if 0 < sigLen then s7.drop sigLen else s7
  .ok ⟨flags, kemCtLen, tagLen, sigLen, nonce, kemCt, tag, sig, s8⟩

/-! ## The signature payload and the encrypt pipeline -/

/-- `struct.pack('>12s', nonce)`: truncate or zero-pad to exactly 12 bytes. -/
def pack12s (nonce : Bytes) : Bytes := nonce.take 12 ++ List.replicate (12 - nonce.length) 0

/-- The canonical signed byte sequence
`struct.pack('>BII12s', algorithms_byte, kem_ct_len, tag_len, nonce) + kem_ct
+ gcm_tag + aes_ciphertext`, built identically at src/encryptor.py lines
191-197 and src/decryptor.py lines 200-206. -/
def signaturePayload (flags kemCtLen tagLen : Nat) (nonce kemCt tag aesCt : Bytes) : Bytes :=
  [flags] ++ u32be kemCtLen ++ u32be tagLen ++ pack12s nonce ++ kemCt ++ tag ++ aesCt

/-- The algorithms byte emitted by `encrypt_file_hybrid`
(src/encryptor.py lines 182 and 189): `KEM | SYM`, with `DSS` or-ed in when a
signer key is given. -/
def algorithmsByteFor (signed : Bool) : Nat :=
  if signed then (ALGORITHM_KEM_MLKEM768 ||| ALGORITHM_SYM_AES256GCM) ||| ALGORITHM_DSS_MLDSA87
  else ALGORITHM_KEM_MLKEM768 ||| ALGORITHM_SYM_AES256GCM

/-- The external primitives `encrypt_file_hybrid` calls. `encaps` is the
one-shot randomized KEM encapsulation (its randomness is folded into the
function value), `sign` is ML-DSA signing, and `aesgcmEnc key nonce pt`
is the AES-256-GCM output `ciphertext ∥ tag` (the `cryptography` library
appends the 16-byte tag). -/
structure EncPrims where
  encaps : Bytes → Bytes × Bytes
  sign : Bytes → Bytes → Bytes
  aesgcmEnc : Bytes → Bytes → Bytes → Bytes

/-- `kem_ciphertext` of `encrypt_file_hybrid` (src/encryptor.py line 165). -/
def encKemCiphertext (prims : EncPrims) (recipientPubKemKey : Bytes) : Bytes :=
  (prims.encaps recipientPubKemKey).1

/-- `aes_key` of `encrypt_file_hybrid`: the normalised shared secret. -/
def encAesKey (prims : EncPrims) (lib : LibType) (recipientPubKemKey : Bytes) : Bytes :=
  encDeriveAesKey lib (prims.encaps recipientPubKemKey).2

/-- `ciphertext` of `encrypt_file_hybrid` (line 173): the AES-GCM output
with the 16-byte tag appended. -/
def encCombined (prims : EncPrims) (lib : LibType) (plaintext recipientPubKemKey nonce : Bytes) :
    Bytes :=
  prims.aesgcmEnc (encAesKey prims lib recipientPubKemKey) nonce plaintext

/-- `aes_ciphertext = ciphertext[:-16]` (line 178). -/
def encAesCiphertext (prims : EncPrims) (lib : LibType)
    (plaintext recipientPubKemKey nonce : Bytes) : Bytes :=
  let c := encCombined prims lib plaintext recipientPubKemKey nonce
  c.take (c.length - 16)

/-- `gcm_tag = ciphertext[-16:]` (line 179). -/
def encGcmTag (prims : EncPrims) (lib : LibType)
    (plaintext recipientPubKemKey nonce : Bytes) : Bytes :=
  let c := encCombined prims lib plaintext recipientPubKemKey nonce
  c.drop (c.length - 16)

/-- `signature_payload` of `encrypt_file_hybrid` (lines 191-197); only built
on the signing path, where the DSS bit has already been or-ed in. -/
def encSigPayload (prims : EncPrims) (lib : LibType)
    (plaintext recipientPubKemKey nonce : Bytes) : Bytes :=
  signaturePayload (algorithmsByteFor true)
    (encKemCiphertext prims recipientPubKemKey).length
    (encGcmTag prims lib plaintext recipientPubKemKey nonce).length nonce
    (encKemCiphertext prims recipientPubKemKey)
    (encGcmTag prims lib plaintext recipientPubKemKey nonce)
    (encAesCiphertext prims lib plaintext recipientPubKemKey nonce)

/-- `signature` of `encrypt_file_hybrid` (line 199), as bytes (`[]` when no
signer key is given). -/
def encSigBytes (prims : EncPrims) (lib : LibType)
    (plaintext recipientPubKemKey : Bytes) (signerPrivDssKey : Option Bytes) (nonce : Bytes) :
    Bytes :=
  match signerPrivDssKey with
  | some sk => prims.sign sk (encSigPayload prims lib plaintext recipientPubKemKey nonce)
  | none => []

/-- The pure core of `encrypt_file_hybrid` (src/encryptor.py lines 135-233):
file reads/writes abstracted to byte sequences, the 12-byte random nonce
passed explicitly.  Returns the container bytes of lines 204-227.

The source writes `sig_len = len(signature) if signature else 0` and skips
`f.write(signature)` for a falsy (`None` or empty) signature; both agree
with `sigBytes.length` and appending `sigBytes`, since an empty signature
contributes nothing either way. -/
def encryptCore (prims : EncPrims) (lib : LibType) (plaintext : Bytes)
    (recipientPubKemKey : Bytes) (signerPrivDssKey : Option Bytes)
    (nonce : Bytes) : Bytes :=
  PQC_FILE_MAGIC ++ [algorithmsByteFor signerPrivDssKey.isSome] ++
    u32be (encKemCiphertext prims recipientPubKemKey).length ++
    u32be (encGcmTag prims lib plaintext recipientPubKemKey nonce).length ++
    u32be (encSigBytes prims lib plaintext recipientPubKemKey signerPrivDssKey nonce).length ++
    nonce ++ encKemCiphertext prims recipientPubKemKey ++
    encGcmTag prims lib plaintext recipientPubKemKey nonce ++
    encSigBytes prims lib plaintext recipientPubKemKey signerPrivDssKey nonce ++
    encAesCiphertext prims lib plaintext recipientPubKemKey nonce

/-! ## The decrypt pipeline, with an explicit trace of cryptographic calls -/

inductive CryptoEvent
  | decap
  | verifySig
  | aeadDecrypt
  | writeOutput
deriving DecidableEq, Repr

inductive DecErr
  | badMagic
  | structError
  | signatureInvalid
  | missingSignerKey
  | signatureRequired
  | decryptionFailed
deriving DecidableEq, Repr

structure DecryptOutput where
  plaintext : Bytes
  signaturePresent : Bool
  signatureVerified : Option Bool
deriving DecidableEq, Repr

/-- The external primitives `decrypt_file_hybrid` calls.  `aesgcmDec key
nonce (ct ∥ tag)` returns `none` on AEAD tag mismatch (`InvalidTag`), and
`dssVerify` is the boolean the adapter `_verify_signature` returns. -/
structure DecPrims where
  decaps : Bytes → Bytes → Bytes
  dssVerify : Bytes → Bytes → Bytes → Bool
  aesgcmDec : Bytes → Bytes → Bytes → Option Bytes

/-- The SYMMETRIC PHASE and output write of `decrypt_file_hybrid`
(src/decryptor.py lines 225-269): AES-GCM decryption of
`aes_ciphertext + gcm_tag`, then the output-file write.  `tr` is the trace
of cryptographic calls made before this phase. -/
def aeadPhase (prims : DecPrims) (aesKey : Bytes) (p : Parsed)
    (tr : List CryptoEvent) (verified : Option Bool) :
    List CryptoEvent × Except DecErr DecryptOutput :=
  match prims.aesgcmDec aesKey p.nonce (p.aesCt ++ p.tag) with
  | none => (tr ++ [.aeadDecrypt], .error .decryptionFailed)
  | some pt => (tr ++ [.aeadDecrypt, .writeOutput], .ok ⟨pt, p.sig.isSome, verified⟩)

/-- The pure core of `decrypt_file_hybrid` (src/decryptor.py lines 136-269),
recording each cryptographic call in an event trace.  Mirrors the source's
order: parse, **then KEM decapsulation (line 193), then the signature
policy (lines 196-223)**, then AEAD decryption, then the output write. -/
def decryptCore (prims : DecPrims) (lib : LibType) (container : Bytes)
    (recipientPrivKemKey : Bytes) (signerPubDssKey : Option Bytes)
    (requireSignature : Bool) : List CryptoEvent × Except DecErr DecryptOutput :=
  match parseContainer container with
  | .error .badMagic => ([], .error .badMagic)
  | .error .structError => ([], .error .structError)
  | .ok p =>
    let aesKey := decDeriveAesKey lib (prims.decaps recipientPrivKemKey p.kemCt)
    match p.sig with
    | some sigBytes =>
      let payload := signaturePayload p.flags p.kemCtLen p.tagLen p.nonce p.kemCt p.tag p.aesCt
      match signerPubDssKey with
      | some pk =>
          if prims.dssVerify pk payload sigBytes then
            aeadPhase prims aesKey p [.decap, .verifySig] (some true)
          else ([.decap, .verifySig], .error .signatureInvalid)
      | none =>
          if requireSignature then ([.decap], .error .missingSignerKey)
          else aeadPhase prims aesKey p [.decap] (some false)
    | none =>
      if requireSignature then ([.decap], .error .signatureRequired)
      else aeadPhase prims aesKey p [.decap] none

/-! ## The `_verify_signature` adapter (src/decryptor.py lines 100-133)

The underlying library call's outcome is modelled explicitly: it either
returns a boolean or raises.  The quantcrypt branch converts any library
exception into a raised `ValueError`; the pqcrypto branch maps "returned"
to `True` and "raised" to `False`; the kyber/dilithium branch passes the
returned boolean through and lets exceptions propagate. -/

inductive LibVerifyOutcome
  | returns (b : Bool)
  | raises
deriving DecidableEq, Repr

inductive AdapterErr
  | valueError
  | uncaught
deriving DecidableEq, Repr

def verifySignatureAdapter (lib : LibType) (outcome : LibVerifyOutcome) :
    Except AdapterErr Bool :=
  match lib, outcome with
  | .quantcrypt, .returns b => .ok b
  | .quantcrypt, .raises => .error .valueError
  | .pqcrypto, .returns _ => .ok true
  | .pqcrypto, .raises => .ok false
  | .kyberDilithium, .returns b => .ok b
  | .kyberDilithium, .raises => .error .uncaught

/-- How each underlying library natively signals a syntactically well-formed
but mathematically invalid signature: quantcrypt's `MLDSA_87().verify`
returns a boolean (the repository's own test, src/test_pqc_toolkit.py lines
55-57, branches on that boolean), so invalid means `returns false`;
pqcrypto's `verify` raises; the `dilithium` package's `verify` returns a
boolean. -/
def libInvalidSignal (lib : LibType) : LibVerifyOutcome :=
  match lib with
  | .quantcrypt => .returns false
  | .pqcrypto => .raises
  | .kyberDilithium => .returns false

/-! ## Concrete toy primitives, used to instantiate witnesses

These are not part of the source; they are concrete values of the primitive
parameters so that closed statements can be evaluated. -/

def toyEncPrims : EncPrims where
  encaps := fun pk => (pk ++ [1], List.replicate 32 7)
  sign := fun _ data => [9] ++ data.take 2
  aesgcmEnc := fun key nonce pt => pt ++ (key.take 8) ++ (nonce.take 8)

def toyDecPrims : DecPrims where
  decaps := fun _ _ => List.replicate 32 7
  dssVerify := fun _ _ sig => sig.headI = 9
  aesgcmDec := fun key nonce c =>
    if c.drop (c.length - 16) = key.take 8 ++ nonce.take 8 then
      some (c.take (c.length - 16))
    else none

/-! # Theorems -/

/-! ## Helper lemmas -/

theorem u32be_length (n : Nat) : (u32be n).length = 4 := rfl

theorem readU32_u32be {n : Nat} (h : n < 4294967296) : readU32 (u32be n) = n := by
  simp only [u32be, readU32]
  omega

/-- The decrypt-side shared-secret normalisation is the same function as the
encrypt-side one (the source duplicates the code verbatim in the two files). -/
theorem decDerive_eq_encDerive (lib : LibType) (ss : Bytes) :
    decDeriveAesKey lib ss = encDeriveAesKey lib ss := by
  cases lib <;> rfl

/-- Decoding a byte sequence laid out exactly as the encoder emits it
recovers every field. -/
theorem parseContainer_append (flags : Nat) (nonce kemCt tag sigBytes aesCt : Bytes)
    (hn : nonce.length = 12) (hk : kemCt.length < 4294967296)
    (ht : tag.length < 4294967296) (hs : sigBytes.length < 4294967296) :
    parseContainer (PQC_FILE_MAGIC ++ [flags] ++ u32be kemCt.length ++ u32be tag.length ++
        u32be sigBytes.length ++ nonce ++ kemCt ++ tag ++ sigBytes ++ aesCt) =
      .ok ⟨flags, kemCt.length, tag.length, sigBytes.length, nonce, kemCt, tag,
        if 0 < sigBytes.length then some sigBytes else none, aesCt⟩ := by
  have hmt : ∀ r : Bytes, (PQC_FILE_MAGIC ++ r).take 4 = PQC_FILE_MAGIC :=
    fun r => List.take_left' rfl
  have hmd : ∀ r : Bytes, (PQC_FILE_MAGIC ++ r).drop 4 = r :=
    fun r => List.drop_left' rfl
  have hdrop1 : ∀ (a : Nat) (r : Bytes), (a :: r).drop 1 = r := fun _ _ => rfl
  have hheadI : ∀ (a : Nat) (r : Bytes), (a :: r).headI = a := fun _ _ => rfl
  have hut : ∀ (n : Nat) (r : Bytes), (u32be n ++ r).take 4 = u32be n :=
    fun n r => List.take_left' rfl
  have hud : ∀ (n : Nat) (r : Bytes), (u32be n ++ r).drop 4 = r :=
    fun n r => List.drop_left' rfl
  have hnt : ∀ r : Bytes, (nonce ++ r).take 12 = nonce := fun r => List.take_left' hn
  have hnd : ∀ r : Bytes, (nonce ++ r).drop 12 = r := fun r => List.drop_left' hn
  have hrk : readU32 (u32be kemCt.length) = kemCt.length := readU32_u32be hk
  have hrt : readU32 (u32be tag.length) = tag.length := readU32_u32be ht
  have hrs : readU32 (u32be sigBytes.length) = sigBytes.length := readU32_u32be hs
  have hlen1 : ∀ (a : Nat) (r : Bytes), ¬((a :: r).length < 1) := by
    intro a r; simp
  have hlen4 : ∀ (n : Nat) (r : Bytes), ¬((u32be n ++ r).length < 4) := by
    intro n r
    simp only [List.length_append, u32be_length]
    omega
  simp only [List.append_assoc, List.cons_append, List.nil_append, parseContainer, hmt, hmd,
    List.singleton_append, hdrop1, hheadI, hlen1, hlen4, hut, hud, hrk, hrt, hrs,
    hnt, hnd, List.take_left, List.drop_left, ne_eq, not_true_eq_false, if_false,
    ite_false, ite_true, not_false_eq_true]
  rcases Nat.eq_zero_or_pos sigBytes.length with h0 | hpos
  · simp [List.eq_nil_of_length_eq_zero h0]
  · simp [hpos]

/-- Decoding a container emitted by the encrypt pipeline recovers exactly
the fields the encrypt pipeline produced. -/
theorem parseContainer_encryptCore (prims : EncPrims) (lib : LibType)
    (plaintext pubKey : Bytes) (sko : Option Bytes) (nonce : Bytes)
    (hn : nonce.length = 12)
    (hk : (encKemCiphertext prims pubKey).length < 4294967296)
    (hs : (encSigBytes prims lib plaintext pubKey sko nonce).length < 4294967296) :
    parseContainer (encryptCore prims lib plaintext pubKey sko nonce) =
      .ok ⟨algorithmsByteFor sko.isSome,
        (encKemCiphertext prims pubKey).length,
        (encGcmTag prims lib plaintext pubKey nonce).length,
        (encSigBytes prims lib plaintext pubKey sko nonce).length,
        nonce, encKemCiphertext prims pubKey,
        encGcmTag prims lib plaintext pubKey nonce,
        (if 0 < (encSigBytes prims lib plaintext pubKey sko nonce).length then
          some (encSigBytes prims lib plaintext pubKey sko nonce) else none),
        encAesCiphertext prims lib plaintext pubKey nonce⟩ := by
  have htag : (encGcmTag prims lib plaintext pubKey nonce).length < 4294967296 := by
    simp only [encGcmTag, List.length_drop]
    omega
  exact parseContainer_append _ _ _ _ _ _ hn hk htag hs

/-- The AEAD ciphertext/tag split made by the encryptor reassembles to the
combined AES-GCM output. -/
theorem encAesCiphertext_append_encGcmTag (prims : EncPrims) (lib : LibType)
    (plaintext pubKey nonce : Bytes) :
    encAesCiphertext prims lib plaintext pubKey nonce ++
      encGcmTag prims lib plaintext pubKey nonce =
      encCombined prims lib plaintext pubKey nonce :=
  List.take_append_drop _ _

/-- C1.  For every plaintext `p` and KEM key pair `(pk, sk)` produced by key
generation, decrypting with `sk` the container produced by encrypting `p`
for `pk` with no signer returns exactly `p`.  The KEM and AEAD primitives
are external collaborators, so their defining properties enter as
hypotheses: `hkem` says decapsulation with `sk` recovers the encapsulated
shared secret (what key generation guarantees for a matching key pair,
and what the repository's own test checks at src/test_pqc_toolkit.py lines
28-34), and `hdec` says AES-GCM decryption inverts AES-GCM encryption under
the same key and nonce. -/
theorem roundtrip_no_signer (ep : EncPrims) (dp : DecPrims) (lib : LibType)
    (plaintext pubKey privKey nonce : Bytes)
    (hn : nonce.length = 12)
    (hk32 : (encKemCiphertext ep pubKey).length < 4294967296)
    (hkem : dp.decaps privKey (ep.encaps pubKey).1 = (ep.encaps pubKey).2)
    (hdec : dp.aesgcmDec (encAesKey ep lib pubKey) nonce
      (encCombined ep lib plaintext pubKey nonce) = some plaintext) :
    (decryptCore dp lib (encryptCore ep lib plaintext pubKey none nonce)
      privKey none false).2 = .ok ⟨plaintext, false, none⟩ := by
  have hsig : encSigBytes ep lib plaintext pubKey none nonce = [] := rfl
  have hparse := parseContainer_encryptCore ep lib plaintext pubKey none nonce hn hk32
    (by rw [hsig]; simp)
  rw [hsig] at hparse
  simp only [List.length_nil, Nat.lt_irrefl, if_false, ite_false] at hparse
  unfold decryptCore
  rw [hparse]
  simp only [aeadPhase, encKemCiphertext] at *
  rw [hkem, decDerive_eq_encDerive]
  simp only [encAesCiphertext_append_encGcmTag]
  rw [show encDeriveAesKey lib (ep.encaps pubKey).2 = encAesKey ep lib pubKey from rfl, hdec]
  simp

/-- Witness for C1 at concrete toy primitives and a concrete plaintext. -/
theorem roundtrip_no_signer_witness :
    (decryptCore toyDecPrims .quantcrypt
      (encryptCore toyEncPrims .quantcrypt [104, 105] [1, 2] none (List.replicate 12 0))
      [] none false).2 = .ok ⟨[104, 105], false, none⟩ :=
  roundtrip_no_signer toyEncPrims toyDecPrims .quantcrypt [104, 105] [1, 2] []
    (List.replicate 12 0) (by decide) (by decide) (by decide) (by decide)

/-- Decoding ignores the value of the flags byte (offset 4): replacing it
changes only the `flags` field of the result. -/
theorem parseContainer_flags_byte (pre : Bytes) (b b' : Nat) (rest : Bytes)
    (h4 : pre.length = 4) :
    parseContainer (pre ++ b :: rest) =
      Except.map (fun p => { p with flags := b }) (parseContainer (pre ++ b' :: rest)) := by
  have ht : ∀ x : Nat, (pre ++ x :: rest).take 4 = pre := fun x => List.take_left' h4
  have hd : ∀ x : Nat, (pre ++ x :: rest).drop 4 = x :: rest := fun x => List.drop_left' h4
  have hdrop1 : ∀ (a : Nat) (r : Bytes), (a :: r).drop 1 = r := fun _ _ => rfl
  have hheadI : ∀ (a : Nat) (r : Bytes), (a :: r).headI = a := fun _ _ => rfl
  have hlen1 : ∀ (a : Nat) (r : Bytes), ¬((a :: r).length < 1) := by intro a r; simp
  simp only [parseContainer, ht, hd, hdrop1, hheadI, hlen1, ite_false, if_false,
    not_false_eq_true]
  by_cases hm : pre = PQC_FILE_MAGIC
  · simp only [hm, ne_eq, not_true_eq_false, if_false, ite_false]
    split_ifs <;> simp [Except.map]
  · simp [hm, Except.map]

/-- In any successful decode the parsed `sig` field is populated exactly when
the parsed `sig_len` word is positive. -/
theorem parseContainer_sig_isSome (d : Bytes) (p : Parsed)
    (h : parseContainer d = .ok p) : p.sig.isSome = decide (0 < p.sigLen) := by
  simp only [parseContainer] at h
  split_ifs at h with h1 h2 h3 h4 h5 h6
  all_goals first
    | exact Except.noConfusion h
    | (injection h with h'
       subst h'
       exact (decide_eq_true h6).symm)
    | (injection h with h'
       subst h'
       exact (decide_eq_false h6).symm)

/-- C10.  Because `ALGORITHM_KEM_MLKEM768 | ALGORITHM_SYM_AES256GCM = 0x03`
and or-ing in `ALGORITHM_DSS_MLDSA87 = 0x02` leaves `0x03`, every container
emitted by `encrypt_file_hybrid` carries flags byte `0x03` whether or not it
is signed; and decoding determines signature presence solely from
`sig_len > 0`, never from the flags byte (replacing the flags byte changes
only the reported `flags` field). -/
theorem flags_byte_constant_and_sig_from_len :
    (ALGORITHM_KEM_MLKEM768 ||| ALGORITHM_SYM_AES256GCM = 3 ∧
      (ALGORITHM_KEM_MLKEM768 ||| ALGORITHM_SYM_AES256GCM) ||| ALGORITHM_DSS_MLDSA87 = 3) ∧
    (∀ signed : Bool, algorithmsByteFor signed = 3) ∧
    (∀ (prims : EncPrims) (lib : LibType) (pt pk : Bytes) (sko : Option Bytes) (nonce : Bytes),
      (encryptCore prims lib pt pk sko nonce)[4]? = some 3) ∧
    (∀ (pre : Bytes) (b b' : Nat) (rest : Bytes), pre.length = 4 →
      parseContainer (pre ++ b :: rest) =
        Except.map (fun p => { p with flags := b }) (parseContainer (pre ++ b' :: rest))) ∧
    (∀ (d : Bytes) (p : Parsed), parseContainer d = .ok p →
      p.sig.isSome = decide (0 < p.sigLen)) := by
  refine ⟨⟨by decide, by decide⟩, ?_, ?_, parseContainer_flags_byte,
    parseContainer_sig_isSome⟩
  · intro signed; cases signed <;> rfl
  · intro prims lib pt pk sko nonce
    have h3 : algorithmsByteFor sko.isSome = 3 := by cases sko <;> rfl
    simp [encryptCore, PQC_FILE_MAGIC, List.append_assoc, List.cons_append,
      List.singleton_append, h3]

/-- Witness for C10: the flags byte of a concrete unsigned container is
`0x03`, and replacing the flags byte of a concrete container by `0xFF`
changes only the reported `flags` field. -/
theorem flags_byte_constant_and_sig_from_len_witness :
    (encryptCore toyEncPrims .quantcrypt [1] [2] none (List.replicate 12 0))[4]? = some 3 ∧
    parseContainer (PQC_FILE_MAGIC ++ 255 :: (u32be 0 ++ u32be 16 ++ u32be 0 ++
        List.replicate 12 0 ++ List.replicate 16 0)) =
      Except.map (fun p => { p with flags := 255 })
        (parseContainer (PQC_FILE_MAGIC ++ 3 :: (u32be 0 ++ u32be 16 ++ u32be 0 ++
          List.replicate 12 0 ++ List.replicate 16 0))) :=
  ⟨flags_byte_constant_and_sig_from_len.2.2.1 toyEncPrims .quantcrypt [1] [2] none
      (List.replicate 12 0),
    flags_byte_constant_and_sig_from_len.2.2.2.1 PQC_FILE_MAGIC 255 3
      (u32be 0 ++ u32be 16 ++ u32be 0 ++ List.replicate 12 0 ++ List.replicate 16 0)
      (by decide)⟩

/-- C3, counterexample.  The claim asserts the emitted flags byte has bit 2
(`0x04`, AES-256-GCM) set, has bit 1 (`0x02`, DSS) set exactly when a
signature is present, and that a decode of any other flags byte (here
`0xFF`) is rejected with `UnsupportedAlgorithm`.  In the source
`ALGORITHM_SYM_AES256GCM = 0x03`, so the unsigned emit is `0x03`: bit 2 is
clear and bit 1 is set with no signature present; the signed emit is the
same byte; and decode accepts the flags byte `0xFF` without error. -/
theorem algorithm_flags_claim_counterexample :
    algorithmsByteFor false = 3 ∧
    Nat.testBit (algorithmsByteFor false) 2 = false ∧
    Nat.testBit (algorithmsByteFor false) 1 = true ∧
    algorithmsByteFor true = algorithmsByteFor false ∧
    parseContainer (PQC_FILE_MAGIC ++ [255] ++ u32be 0 ++ u32be 16 ++ u32be 0 ++
        List.replicate 12 0 ++ List.replicate 16 0) =
      .ok ⟨255, 0, 16, 0, List.replicate 12 0, [], List.replicate 16 0, none, []⟩ := by
  decide

/-- C3, amended.  The emitted algorithms byte is `0x03` both with and
without a signer, and decode never rejects a container because of its flags
byte: the only decode failures are the bad-magic `ValueError` and
`struct.error`; no `UnsupportedAlgorithm`-style failure exists. -/
theorem algorithm_flags_actual :
    (∀ signed : Bool, algorithmsByteFor signed = 3) ∧
    (∀ (d : Bytes) (e : ParseErr), parseContainer d = .error e →
      e = .badMagic ∨ e = .structError) := by
  constructor
  · intro signed; cases signed <;> rfl
  · intro d e _
    cases e
    · exact Or.inl rfl
    · exact Or.inr rfl

/-- Witness for amended C3, at the concrete input `[]` (which fails decode
with the bad-magic error). -/
theorem algorithm_flags_actual_witness :
    ParseErr.badMagic = ParseErr.badMagic ∨ ParseErr.badMagic = ParseErr.structError :=
  algorithm_flags_actual.2 [] ParseErr.badMagic (by decide)

/-- C6, counterexample.  A 17-byte input consisting of the magic, flags
`0x03`, `kem_ct_len = 1000000`, `tag_len = 15`, `sig_len = 0` and nothing
else decodes successfully, although the claim requires `Truncated` (input
shorter than 29 bytes; declared lengths exceed the remaining bytes),
`InvalidLength` (`tag_len ≠ 16`), and `InconsistentHeader` (the DSS bit of
`0x03` is set while `sig_len = 0`). -/
theorem structural_rejection_counterexample :
    parseContainer (PQC_FILE_MAGIC ++ [3] ++ u32be 1000000 ++ u32be 15 ++ u32be 0) =
      .ok ⟨3, 1000000, 15, 0, [], [], [], none, []⟩ := by decide

/-- C6, amended.  The decode phase performs no structural validation beyond
reading: it succeeds exactly when the first four bytes are the magic and at
least 17 bytes are present (magic, flags, three length words); a wrong magic
raises the bad-magic `ValueError`, a valid magic with fewer than 17 bytes
raises `struct.error`.  Over-long declared lengths, a tag length other than
16, and `sig_len` inconsistent with the flags byte are all accepted. -/
theorem structural_rejection_actual (d : Bytes) :
    ((parseContainer d).isOk = true ↔ (d.take 4 = PQC_FILE_MAGIC ∧ 17 ≤ d.length)) ∧
    (parseContainer d = .error .badMagic ↔ d.take 4 ≠ PQC_FILE_MAGIC) ∧
    (parseContainer d = .error .structError ↔
      (d.take 4 = PQC_FILE_MAGIC ∧ d.length < 17)) := by
  have hlen : d.take 4 = PQC_FILE_MAGIC → 4 ≤ d.length := by
    intro h
    have h' := congrArg List.length h
    simp [PQC_FILE_MAGIC] at h'
    omega
  by_cases hm : d.take 4 = PQC_FILE_MAGIC
  · have h4 := hlen hm
    by_cases hl : 17 ≤ d.length
    · have c1 : ¬((d.drop 4).length < 1) := by simp [List.length_drop]; omega
      have c2 : ¬(((d.drop 4).drop 1).length < 4) := by simp [List.length_drop]; omega
      have c3 : ¬((((d.drop 4).drop 1).drop 4).length < 4) := by
        simp [List.length_drop]; omega
      have c4 : ¬(((((d.drop 4).drop 1).drop 4).drop 4).length < 4) := by
        simp [List.length_drop]; omega
      simp only [parseContainer, hm, ne_eq, not_true_eq_false, if_false, ite_false,
        c1, c2, c3, c4]
      refine ⟨?_, ?_, ?_⟩
      · split_ifs <;> simp [Except.isOk, Except.toBool, hm, hl]
      · split_ifs <;> simp [hm]
      · split_ifs <;> simp [hm] <;> omega
    · simp only [parseContainer, hm, ne_eq, not_true_eq_false, if_false, ite_false]
      split_ifs with c1 c2 c3 c4 <;>
        first
          | refine ⟨by simp [Except.isOk, Except.toBool]; omega, by simp,
              by simp [hm]; omega⟩
          | (exfalso
             simp only [List.length_drop] at c1 c2 c3 c4
             omega)
  · have hp : parseContainer d = .error .badMagic := by
      simp [parseContainer, hm]
    rw [hp]
    simp [Except.isOk, Except.toBool, hm]

/-- C7.  The byte sequence signed on the encrypt path and the byte sequence
verified on the decrypt path are both exactly
`pack_be(algorithm_flags, kem_ct_len, tag_len, nonce) ∥ kem_ct ∥ aead_tag ∥
aead_ciphertext`, with `sig_len` excluded; for every container produced by
`encrypt_file_hybrid` with a signer, decoding recovers exactly the fields
the encryptor wrote, and the payload the decryptor reconstructs from those
parsed fields equals the payload that was signed. -/
theorem signature_payload_binding (ep : EncPrims) (lib : LibType)
    (plaintext pubKey signerKey nonce : Bytes)
    (hn : nonce.length = 12)
    (hk : (encKemCiphertext ep pubKey).length < 4294967296)
    (hs32 : (encSigBytes ep lib plaintext pubKey (some signerKey) nonce).length < 4294967296)
    (hsne : encSigBytes ep lib plaintext pubKey (some signerKey) nonce ≠ []) :
    (encSigBytes ep lib plaintext pubKey (some signerKey) nonce =
      ep.sign signerKey ([algorithmsByteFor true] ++
        u32be (encKemCiphertext ep pubKey).length ++
        u32be (encGcmTag ep lib plaintext pubKey nonce).length ++ pack12s nonce ++
        encKemCiphertext ep pubKey ++ encGcmTag ep lib plaintext pubKey nonce ++
        encAesCiphertext ep lib plaintext pubKey nonce)) ∧
    parseContainer (encryptCore ep lib plaintext pubKey (some signerKey) nonce) =
      .ok ⟨algorithmsByteFor true, (encKemCiphertext ep pubKey).length,
        (encGcmTag ep lib plaintext pubKey nonce).length,
        (encSigBytes ep lib plaintext pubKey (some signerKey) nonce).length,
        nonce, encKemCiphertext ep pubKey, encGcmTag ep lib plaintext pubKey nonce,
        some (encSigBytes ep lib plaintext pubKey (some signerKey) nonce),
        encAesCiphertext ep lib plaintext pubKey nonce⟩ ∧
    signaturePayload (algorithmsByteFor true) (encKemCiphertext ep pubKey).length
        (encGcmTag ep lib plaintext pubKey nonce).length nonce
        (encKemCiphertext ep pubKey) (encGcmTag ep lib plaintext pubKey nonce)
        (encAesCiphertext ep lib plaintext pubKey nonce) =
      encSigPayload ep lib plaintext pubKey nonce := by
  refine ⟨rfl, ?_, rfl⟩
  have h := parseContainer_encryptCore ep lib plaintext pubKey (some signerKey) nonce hn hk hs32
  rw [h, if_pos (List.length_pos.mpr hsne)]
  rfl

/-- Witness for C7 at concrete toy primitives. -/
theorem signature_payload_binding_witness :
    parseContainer (encryptCore toyEncPrims .quantcrypt [104] [1] (some [42])
        (List.replicate 12 0)) =
      .ok ⟨algorithmsByteFor true, (encKemCiphertext toyEncPrims [1]).length,
        (encGcmTag toyEncPrims .quantcrypt [104] [1] (List.replicate 12 0)).length,
        (encSigBytes toyEncPrims .quantcrypt [104] [1] (some [42]) (List.replicate 12 0)).length,
        List.replicate 12 0, encKemCiphertext toyEncPrims [1],
        encGcmTag toyEncPrims .quantcrypt [104] [1] (List.replicate 12 0),
        some (encSigBytes toyEncPrims .quantcrypt [104] [1] (some [42]) (List.replicate 12 0)),
        encAesCiphertext toyEncPrims .quantcrypt [104] [1] (List.replicate 12 0)⟩ :=
  (signature_payload_binding toyEncPrims .quantcrypt [104] [1] [42] (List.replicate 12 0)
    (by decide) (by decide) (by decide) (by decide)).2.1

/-- The AEAD phase either fails with `decryptionFailed` after appending only
`aeadDecrypt` to the trace, or succeeds (with the verification flag it was
handed) appending `aeadDecrypt` then `writeOutput`. -/
theorem aeadPhase_cases (dp : DecPrims) (k : Bytes) (p : Parsed)
    (tr : List CryptoEvent) (v : Option Bool) :
    ((aeadPhase dp k p tr v).2 = .error .decryptionFailed ∧
      (aeadPhase dp k p tr v).1 = tr ++ [.aeadDecrypt]) ∨
    (∃ pt, (aeadPhase dp k p tr v).2 = .ok ⟨pt, p.sig.isSome, v⟩ ∧
      (aeadPhase dp k p tr v).1 = tr ++ [.aeadDecrypt, .writeOutput]) := by
  unfold aeadPhase
  rcases dp.aesgcmDec k p.nonce (p.aesCt ++ p.tag) with _ | pt <;> simp

/-- C9.  On every decrypt failure — structural decode error, signature
policy failure, `SignatureInvalid`, or AEAD tag mismatch — the output-file
write never happens (no partial plaintext exists in the model: a plaintext
value is produced only inside the success result). -/
theorem no_partial_output_on_failure (dp : DecPrims) (lib : LibType) (c sk : Bytes)
    (sko : Option Bytes) (req : Bool) (e : DecErr)
    (h : (decryptCore dp lib c sk sko req).2 = .error e) :
    CryptoEvent.writeOutput ∉ (decryptCore dp lib c sk sko req).1 := by
  unfold decryptCore at h ⊢
  cases hp : parseContainer c with
  | error pe => cases pe <;> simp [hp]
  | ok p =>
    simp only [hp] at h ⊢
    rcases hsig : p.sig with _ | s <;> simp only [hsig] at h ⊢
    · by_cases hreq : req
      · simp [hreq]
      · simp only [hreq, Bool.false_eq_true, ite_false, if_false] at h ⊢
        rcases aeadPhase_cases dp (decDeriveAesKey lib (dp.decaps sk p.kemCt)) p
            [.decap] none with ⟨_, h2⟩ | ⟨pt, h1, _⟩
        · rw [h2]; decide
        · rw [h] at h1; exact Except.noConfusion h1
    · rcases sko with _ | pk <;> simp only at h ⊢
      · by_cases hreq : req
        · simp [hreq]
        · simp only [hreq, Bool.false_eq_true, ite_false, if_false] at h ⊢
          rcases aeadPhase_cases dp (decDeriveAesKey lib (dp.decaps sk p.kemCt)) p
              [.decap] (some false) with ⟨_, h2⟩ | ⟨pt, h1, _⟩
          · rw [h2]; decide
          · rw [h] at h1; exact Except.noConfusion h1
      · by_cases hv : dp.dssVerify pk
            (signaturePayload p.flags p.kemCtLen p.tagLen p.nonce p.kemCt p.tag p.aesCt) s
        · simp only [hv, ite_true, if_true] at h ⊢
          rcases aeadPhase_cases dp (decDeriveAesKey lib (dp.decaps sk p.kemCt)) p
              [.decap, .verifySig] (some true) with ⟨_, h2⟩ | ⟨pt, h1, _⟩
          · rw [h2]; decide
          · rw [h] at h1; exact Except.noConfusion h1
        · simp [hv]

/-- Witness for C9: decoding the garbage input `[1, 2, 3]` fails, and the
trace contains no output write. -/
theorem no_partial_output_on_failure_witness :
    CryptoEvent.writeOutput ∉
      (decryptCore toyDecPrims .quantcrypt [1, 2, 3] [] none false).1 :=
  no_partial_output_on_failure toyDecPrims .quantcrypt [1, 2, 3] [] none false
    .badMagic (by decide)

/-- C2, counterexample.  The claim asserts that on a container without a
signature and `require_signature = true`, `SignatureRequired` is raised
before any cryptographic work (spec scenario S4: "before any primitive
call").  On a concrete unsigned container the source fails with the
signature-required error only after KEM decapsulation has already been
performed (src/decryptor.py line 193 precedes lines 196-223): the trace at
the failure is `[decap]`, not `[]`. -/
theorem policy_before_crypto_counterexample :
    decryptCore toyDecPrims .quantcrypt
        (encryptCore toyEncPrims .quantcrypt [104] [1] none (List.replicate 12 0))
        [] none true =
      ([CryptoEvent.decap], .error .signatureRequired) ∧
    [CryptoEvent.decap] ≠ ([] : List CryptoEvent) := by decide

/-- C2, amended.  The signature policy is applied after KEM decapsulation
but before any AEAD work: every `SignatureRequired`, `MissingSignerKey` or
`SignatureInvalid` failure happens with the KEM decapsulation already in the
trace and no AEAD decryption or output write in it; and when a signature is
verified successfully, the verification call precedes the AEAD decryption
call in the trace. -/
theorem policy_after_decap_before_aead (dp : DecPrims) (lib : LibType) (c sk : Bytes)
    (sko : Option Bytes) (req : Bool) :
    (∀ e : DecErr, (e = .signatureRequired ∨ e = .missingSignerKey ∨ e = .signatureInvalid) →
      (decryptCore dp lib c sk sko req).2 = .error e →
      ((decryptCore dp lib c sk sko req).1 = [.decap] ∨
        (decryptCore dp lib c sk sko req).1 = [.decap, .verifySig])) ∧
    (∀ o : DecryptOutput, (decryptCore dp lib c sk sko req).2 = .ok o →
      o.signatureVerified = some true →
      (decryptCore dp lib c sk sko req).1 =
        [.decap, .verifySig, .aeadDecrypt, .writeOutput]) := by
  unfold decryptCore
  cases hp : parseContainer c with
  | error pe =>
    cases pe <;>
      exact ⟨fun e h1 h2 => by rcases h1 with h | h | h <;> simp_all,
        fun o h1 h2 => by simp_all⟩
  | ok p =>
    rcases hsig : p.sig with _ | s <;> simp only [hsig]
    · by_cases hreq : req
      · simp only [hreq, ite_true, if_true]
        exact ⟨fun e h1 h2 => by simp, fun o h1 h2 => by simp_all⟩
      · simp only [hreq, Bool.false_eq_true, ite_false, if_false]
        rcases aeadPhase_cases dp (decDeriveAesKey lib (dp.decaps sk p.kemCt)) p
            [.decap] none with ⟨h1, h2⟩ | ⟨pt, h1, h2⟩
        · refine ⟨fun e he hh => ?_, fun o ho hv => ?_⟩
          · rw [h1] at hh
            injection hh with hh'
            subst hh'
            rcases he with he | he | he <;> exact absurd he (by decide)
          · rw [h1] at ho
            exact Except.noConfusion ho
        · refine ⟨fun e he hh => ?_, fun o ho hv => ?_⟩
          · rw [h1] at hh
            exact Except.noConfusion hh
          · rw [h1] at ho
            injection ho with ho'
            subst ho'
            simp at hv
    · rcases sko with _ | pk <;> simp only
      · by_cases hreq : req
        · simp only [hreq, ite_true, if_true]
          exact ⟨fun e h1 h2 => by simp, fun o h1 h2 => by simp_all⟩
        · simp only [hreq, Bool.false_eq_true, ite_false, if_false]
          rcases aeadPhase_cases dp (decDeriveAesKey lib (dp.decaps sk p.kemCt)) p
              [.decap] (some false) with ⟨h1, h2⟩ | ⟨pt, h1, h2⟩
          · refine ⟨fun e he hh => ?_, fun o ho hv => ?_⟩
            · rw [h1] at hh
              injection hh with hh'
              subst hh'
              rcases he with he | he | he <;> exact absurd he (by decide)
            · rw [h1] at ho
              exact Except.noConfusion ho
          · refine ⟨fun e he hh => ?_, fun o ho hv => ?_⟩
            · rw [h1] at hh
              exact Except.noConfusion hh
            · rw [h1] at ho
              injection ho with ho'
              subst ho'
              simp at hv
      · by_cases hv : dp.dssVerify pk
            (signaturePayload p.flags p.kemCtLen p.tagLen p.nonce p.kemCt p.tag p.aesCt) s
        · simp only [hv, ite_true, if_true]
          rcases aeadPhase_cases dp (decDeriveAesKey lib (dp.decaps sk p.kemCt)) p
              [.decap, .verifySig] (some true) with ⟨h1, h2⟩ | ⟨pt, h1, h2⟩
          · refine ⟨fun e he hh => ?_, fun o ho hv' => ?_⟩
            · rw [h1] at hh
              injection hh with hh'
              subst hh'
              rcases he with he | he | he <;> exact absurd he (by decide)
            · rw [h1] at ho
              exact Except.noConfusion ho
          · refine ⟨fun e he hh => ?_, fun o ho hv' => ?_⟩
            · rw [h1] at hh
              exact Except.noConfusion hh
            · rw [h2]
              rfl
        · simp only [hv, Bool.false_eq_true, ite_false, if_false]
          exact ⟨fun e h1 h2 => by simp, fun o h1 h2 => by simp_all⟩

/-- Witness for amended C2: on a concrete unsigned container with
`require_signature = true`, the theorem places the failure's trace at
`[decap]` or `[decap, verifySig]`. -/
theorem policy_after_decap_before_aead_witness :
    (decryptCore toyDecPrims .quantcrypt
        (encryptCore toyEncPrims .quantcrypt [104] [1] none (List.replicate 12 0))
        [] none true).1 = [CryptoEvent.decap] ∨
    (decryptCore toyDecPrims .quantcrypt
        (encryptCore toyEncPrims .quantcrypt [104] [1] none (List.replicate 12 0))
        [] none true).1 = [CryptoEvent.decap, CryptoEvent.verifySig] :=
  (policy_after_decap_before_aead toyDecPrims .quantcrypt
      (encryptCore toyEncPrims .quantcrypt [104] [1] none (List.replicate 12 0))
      [] none true).1
    .signatureRequired (Or.inl rfl) (by decide)

/-- C5.  Every row of the decrypt signature-policy matrix, on any container
`c` that decodes to fields `p` (the success rows additionally assume the
AEAD decryption of `p` succeeds, producing `pt`):
no signature / `require_signature = false` succeeds with
`signature_verified = none`; no signature / `require_signature = true`
fails `SignatureRequired`; signature, no signer key,
`require_signature = false` succeeds with `signature_verified = some false`;
signature, no signer key, `require_signature = true` fails
`MissingSignerKey`; signature and signer key, any `require_signature`:
verification success yields `signature_verified = some true`, failure
raises `SignatureInvalid`. -/
theorem signature_policy_matrix (dp : DecPrims) (lib : LibType) (c sk : Bytes)
    (p : Parsed) (hp : parseContainer c = .ok p) :
    (p.sig = none → ∀ (sko : Option Bytes) (pt : Bytes),
      dp.aesgcmDec (decDeriveAesKey lib (dp.decaps sk p.kemCt)) p.nonce
        (p.aesCt ++ p.tag) = some pt →
      (decryptCore dp lib c sk sko false).2 = .ok ⟨pt, false, none⟩) ∧
    (p.sig = none → ∀ sko : Option Bytes,
      (decryptCore dp lib c sk sko true).2 = .error .signatureRequired) ∧
    (∀ s, p.sig = some s → ∀ pt : Bytes,
      dp.aesgcmDec (decDeriveAesKey lib (dp.decaps sk p.kemCt)) p.nonce
        (p.aesCt ++ p.tag) = some pt →
      (decryptCore dp lib c sk none false).2 = .ok ⟨pt, true, some false⟩) ∧
    (∀ s, p.sig = some s →
      (decryptCore dp lib c sk none true).2 = .error .missingSignerKey) ∧
    (∀ s, p.sig = some s → ∀ (pk : Bytes) (req : Bool),
      dp.dssVerify pk
        (signaturePayload p.flags p.kemCtLen p.tagLen p.nonce p.kemCt p.tag p.aesCt) s = true →
      ∀ pt : Bytes,
      dp.aesgcmDec (decDeriveAesKey lib (dp.decaps sk p.kemCt)) p.nonce
        (p.aesCt ++ p.tag) = some pt →
      (decryptCore dp lib c sk (some pk) req).2 = .ok ⟨pt, true, some true⟩) ∧
    (∀ s, p.sig = some s → ∀ (pk : Bytes) (req : Bool),
      dp.dssVerify pk
        (signaturePayload p.flags p.kemCtLen p.tagLen p.nonce p.kemCt p.tag p.aesCt) s = false →
      (decryptCore dp lib c sk (some pk) req).2 = .error .signatureInvalid) := by
  refine ⟨?_, ?_, ?_, ?_, ?_, ?_⟩
  · intro hsig sko pt had
    unfold decryptCore aeadPhase
    rw [hp]
    simp [hsig, had]
  · intro hsig sko
    unfold decryptCore
    rw [hp]
    simp [hsig]
  · intro s hsig pt had
    unfold decryptCore aeadPhase
    rw [hp]
    simp [hsig, had]
  · intro s hsig
    unfold decryptCore
    rw [hp]
    simp [hsig]
  · intro s hsig pk req hv pt had
    unfold decryptCore aeadPhase
    rw [hp]
    simp [hsig, hv, had]
  · intro s hsig pk req hv
    unfold decryptCore
    rw [hp]
    simp [hsig, hv]

/-- Witness for C5 on a concrete unsigned container: row 2 (fails
`SignatureRequired` under `require_signature = true`) and row 1 (succeeds
with `signature_verified = none` otherwise). -/
theorem signature_policy_matrix_witness :
    (decryptCore toyDecPrims .quantcrypt
        (encryptCore toyEncPrims .quantcrypt [104] [1] none (List.replicate 12 0))
        [] none true).2 = .error .signatureRequired ∧
    (decryptCore toyDecPrims .quantcrypt
        (encryptCore toyEncPrims .quantcrypt [104] [1] none (List.replicate 12 0))
        [] none false).2 =
      .ok ⟨[104], false, none⟩ :=
  ⟨(signature_policy_matrix toyDecPrims .quantcrypt
      (encryptCore toyEncPrims .quantcrypt [104] [1] none (List.replicate 12 0)) []
      ⟨3, 2, 16, 0, List.replicate 12 0, [1, 1],
        [7, 7, 7, 7, 7, 7, 7, 7, 0, 0, 0, 0, 0, 0, 0, 0], none, [104]⟩
      (by decide)).2.1 (by decide) none,
    (signature_policy_matrix toyDecPrims .quantcrypt
      (encryptCore toyEncPrims .quantcrypt [104] [1] none (List.replicate 12 0)) []
      ⟨3, 2, 16, 0, List.replicate 12 0, [1, 1],
        [7, 7, 7, 7, 7, 7, 7, 7, 0, 0, 0, 0, 0, 0, 0, 0], none, [104]⟩
      (by decide)).1 (by decide) none [104] (by decide)⟩

/-- C4, counterexample.  The claim states that on both paths every shared
secret shorter than 32 bytes is run through HKDF-SHA256 (empty salt, info
`"pqc-aes-key"`).  On the `pqcrypto` and `kyber`/`dilithium` library
branches the source instead zero-pads the secret to 32 bytes
(src/encryptor.py line 90, src/decryptor.py line 88): for the one-byte
secret `0x00` both sides produce 32 zero bytes, which differs from the
HKDF-SHA256 output. -/
theorem session_key_hkdf_counterexample :
    encDeriveAesKey .pqcrypto [0] = [0] ++ List.replicate 31 0 ∧
    decDeriveAesKey .pqcrypto [0] = [0] ++ List.replicate 31 0 ∧
    encDeriveAesKey .pqcrypto [0] ≠ hkdfSha256_32 [0] pqcAesKeyInfo := by decide

/-- C4, amended.  On every library branch and both paths, a shared secret of
at least 32 bytes yields its first 32 bytes verbatim; for shorter secrets
the `quantcrypt` branch applies HKDF-SHA256 with empty salt and info
`"pqc-aes-key"` on both paths, while the `pqcrypto` and `kyber`/`dilithium`
branches zero-pad to 32 bytes on both paths. -/
theorem session_key_derivation_rule :
    (∀ (lib : LibType) (ss : Bytes), 32 ≤ ss.length →
      encDeriveAesKey lib ss = ss.take 32 ∧ decDeriveAesKey lib ss = ss.take 32) ∧
    (∀ ss : Bytes, ss.length < 32 →
      encDeriveAesKey .quantcrypt ss = hkdfSha256_32 ss pqcAesKeyInfo ∧
      decDeriveAesKey .quantcrypt ss = hkdfSha256_32 ss pqcAesKeyInfo) ∧
    (∀ ss : Bytes, ss.length < 32 →
      encDeriveAesKey .pqcrypto ss = ss ++ List.replicate (32 - ss.length) 0 ∧
      decDeriveAesKey .pqcrypto ss = ss ++ List.replicate (32 - ss.length) 0 ∧
      encDeriveAesKey .kyberDilithium ss = ss ++ List.replicate (32 - ss.length) 0 ∧
      decDeriveAesKey .kyberDilithium ss = ss ++ List.replicate (32 - ss.length) 0) := by
  refine ⟨?_, ?_, ?_⟩
  · intro lib ss h
    cases lib <;> simp [encDeriveAesKey, decDeriveAesKey, h]
  · intro ss h
    simp [encDeriveAesKey, decDeriveAesKey, Nat.not_le.mpr h]
  · intro ss h
    simp [encDeriveAesKey, decDeriveAesKey, Nat.not_le.mpr h]

/-- Witness for amended C4 at a 33-byte secret (truncation) and a 1-byte
secret (HKDF on the quantcrypt branch). -/
theorem session_key_derivation_rule_witness :
    encDeriveAesKey .quantcrypt (List.replicate 33 5) = (List.replicate 33 5).take 32 ∧
    encDeriveAesKey .quantcrypt [1] = hkdfSha256_32 [1] pqcAesKeyInfo :=
  ⟨(session_key_derivation_rule.1 .quantcrypt (List.replicate 33 5) (by decide)).1,
    (session_key_derivation_rule.2.1 [1] (by decide)).1⟩

/-- C8.  Whenever the underlying library signals a syntactically well-formed
but mathematically invalid signature in its native way — `quantcrypt`'s and
`dilithium`'s `verify` return a boolean (the repository's own test,
src/test_pqc_toolkit.py lines 55-57, branches on that boolean), `pqcrypto`'s
`verify` raises — the adapter `_verify_signature` returns `false` and does
not raise. -/
theorem dss_verify_invalid_returns_false
    (verifyFn : Bytes → Bytes → Bytes → LibVerifyOutcome) (lib : LibType)
    (pk msg sigBytes : Bytes)
    (h : verifyFn pk msg sigBytes = libInvalidSignal lib) :
    verifySignatureAdapter lib (verifyFn pk msg sigBytes) = .ok false := by
  rw [h]
  cases lib <;> rfl

/-- Witness for C8 on each library branch's native invalid-signature signal. -/
theorem dss_verify_invalid_returns_false_witness :
    verifySignatureAdapter .quantcrypt
        ((fun (_ _ _ : Bytes) => LibVerifyOutcome.returns false) [] [] []) = .ok false ∧
    verifySignatureAdapter .pqcrypto
        ((fun (_ _ _ : Bytes) => LibVerifyOutcome.raises) [] [] []) = .ok false :=
  ⟨dss_verify_invalid_returns_false (fun _ _ _ => .returns false) .quantcrypt [] [] [] rfl,
    dss_verify_invalid_returns_false (fun _ _ _ => .raises) .pqcrypto [] [] [] rfl⟩

/-- FIPS 180-4 test vector: SHA-256 of the empty message. -/
theorem sha256_empty_vector :
    sha256 [] = [0xe3, 0xb0, 0xc4, 0x42, 0x98, 0xfc, 0x1c, 0x14, 0x9a, 0xfb, 0xf4, 0xc8,
      0x99, 0x6f, 0xb9, 0x24, 0x27, 0xae, 0x41, 0xe4, 0x64, 0x9b, 0x93, 0x4c,
      0xa4, 0x95, 0x99, 0x1b, 0x78, 0x52, 0xb8, 0x55] := by decide

/-- FIPS 180-4 test vector: SHA-256 of `"abc"`. -/
theorem sha256_abc_vector :
    sha256 [0x61, 0x62, 0x63] = [0xba, 0x78, 0x16, 0xbf, 0x8f, 0x01, 0xcf, 0xea, 0x41, 0x41,
      0x40, 0xde, 0x5d, 0xae, 0x22, 0x23, 0xb0, 0x03, 0x61, 0xa3, 0x96, 0x17, 0x7a, 0x9c,
      0xb4, 0x10, 0xff, 0x61, 0xf2, 0x00, 0x15, 0xad] := by decide

/-- Cross-check of the HKDF embedding against RFC 5869 arithmetic computed
independently: `HKDF-SHA256(salt = 0^32, ikm = 0x00, info = "pqc-aes-key")`. -/
theorem hkdf_reference_vector :
    hkdfSha256_32 [0] pqcAesKeyInfo = [88, 22, 217, 6, 206, 79, 251, 213, 163, 103, 199, 210,
      162, 198, 92, 93, 148, 231, 254, 22, 28, 184, 159, 152, 152, 215, 224, 62, 159, 166,
      227, 238] := by decide

end PQC
